import Mathlib

/-!
A shallow embedding of the slicing pipeline in `src/wasm/src/slicer.cpp`
(`SimpleSlicer`), with the theorems that settle the specification claims.

Modelling conventions:
* C++ `double` is modelled by `ℚ` (exact arithmetic).  In Lean, `q / 0 = 0`
  whereas IEEE division by zero yields a non-finite value; the spots where the
  source can divide by zero (`calculateIntersection` on an edge of zero Z
  extent, `generateInfill` at `infillDensity = 0`) are noted at the
  definitions, and no theorem below depends on the value such a division
  produces.
* The two C-style `for` loops (`for (double z = minZ; z <= maxZ; z += h)` and
  `for (double x = minX; x <= maxX; x += step)`) are both instances of one
  ascending sweep.  They are embedded as `sweepFuel`, a structural recursion
  whose body is exactly the loop body (test `v ≤ hi`, emit `v`, step to
  `v + step`), driven by a fuel that is proven sufficient
  (`sweepFuel_spec`).  For a non-positive step the C++ loop either runs zero
  times (`lo > hi`) or never terminates (`lo ≤ hi`); `sweep` returns `[]` in
  both cases and every theorem that touches the loop carries the positivity
  hypothesis under which the source terminates.
* `std::vector<double>` results are `List ℚ`; `bbox[i]` is `List.getD` (the
  source only ever indexes in bounds).
* `generateGCode` returns `Option (List GLine)`: `layers.back()` on an empty
  vector is undefined behaviour, modelled as `none`; the G-code text is the
  rendering of the structured `GLine` list (C++ `ostream` double formatting is
  abstracted by a fixed injective rendering of `ℚ`).
-/

set_option linter.unusedVariables false
set_option maxRecDepth 10000

namespace Slicer

/-- `struct Vector3 { double x, y, z; }`. -/
structure Vector3 where
  x : ℚ
  y : ℚ
  z : ℚ
deriving DecidableEq, Repr

/-- `struct Triangle { Vector3 v1, v2, v3; }`. -/
structure Triangle where
  v1 : Vector3
  v2 : Vector3
  v3 : Vector3
deriving DecidableEq, Repr

/-- `struct Layer { double height; vector<vector<Vector3>> contours, infill; }`. -/
structure Layer where
  height : ℚ
  contours : List (List Vector3)
  infill : List (List Vector3)
deriving DecidableEq, Repr

/-- The data members of `class SimpleSlicer`: the stored triangle list and the
two configuration values (`layerHeight`, `infillDensity`). -/
structure SimpleSlicer where
  triangles : List Triangle
  layerHeight : ℚ
  infillDensity : ℚ
deriving DecidableEq, Repr

/-- `SimpleSlicer::createTestCube`: the 12 triangles of the side-10 cube
centred at the origin (`size = 10.0`, corners at `±size/2`). -/
def createTestCube : List Triangle :=
  let s : ℚ := 10
  let p1 : Vector3 := ⟨-s/2, -s/2, -s/2⟩
  let p2 : Vector3 := ⟨ s/2, -s/2, -s/2⟩
  let p3 : Vector3 := ⟨ s/2,  s/2, -s/2⟩
  let p4 : Vector3 := ⟨-s/2,  s/2, -s/2⟩
  let p5 : Vector3 := ⟨-s/2, -s/2,  s/2⟩
  let p6 : Vector3 := ⟨ s/2, -s/2,  s/2⟩
  let p7 : Vector3 := ⟨ s/2,  s/2,  s/2⟩
  let p8 : Vector3 := ⟨-s/2,  s/2,  s/2⟩
  [⟨p1, p2, p3⟩, ⟨p1, p3, p4⟩,
   ⟨p5, p6, p7⟩, ⟨p5, p7, p8⟩,
   ⟨p1, p2, p6⟩, ⟨p1, p6, p5⟩,
   ⟨p3, p4, p8⟩, ⟨p3, p8, p7⟩,
   ⟨p2, p3, p7⟩, ⟨p2, p7, p6⟩,
   ⟨p1, p4, p8⟩, ⟨p1, p8, p5⟩]

/-- `SimpleSlicer::parseSTL`: clears the stored triangles, installs the test
cube regardless of the input string, and returns `true`.  The result pairs the
returned `bool` with the updated slicer state. -/
def parseSTL (s : SimpleSlicer) (stlData : String) : Bool × SimpleSlicer :=
  (true, { s with triangles := createTestCube })

/-- `SimpleSlicer::getBoundingBox`: `{0,0,0,0,0,0}` for an empty triangle
list; otherwise each bound is a fold over all triangles starting from
`triangles[0].v1`, exactly as the C++ loop updates the six accumulators
(`minX = min(minX, min(v1.x, min(v2.x, v3.x)))` and so on).  The six
independent accumulators of the single C++ loop are written as six folds. -/
def getBoundingBox : List Triangle → List ℚ
  | [] => [0, 0, 0, 0, 0, 0]
  | t0 :: rest =>
      let ts := t0 :: rest
      [ts.foldl (fun a t => min a (min t.v1.x (min t.v2.x t.v3.x))) t0.v1.x,
       ts.foldl (fun a t => min a (min t.v1.y (min t.v2.y t.v3.y))) t0.v1.y,
       ts.foldl (fun a t => min a (min t.v1.z (min t.v2.z t.v3.z))) t0.v1.z,
       ts.foldl (fun a t => max a (max t.v1.x (max t.v2.x t.v3.x))) t0.v1.x,
       ts.foldl (fun a t => max a (max t.v1.y (max t.v2.y t.v3.y))) t0.v1.y,
       ts.foldl (fun a t => max a (max t.v1.z (max t.v2.z t.v3.z))) t0.v1.z]

/-- Body of the ascending C-style loop `for (v = lo; v <= hi; v += step)`,
collecting the visited values; the fuel only bounds the iteration count and is
instantiated large enough in `sweep` (`sweepFuel_spec` proves sufficiency). -/
def sweepFuel (step hi : ℚ) : ℕ → ℚ → List ℚ
  | 0, _ => []
  | fuel + 1, v => if v ≤ hi then v :: sweepFuel step hi fuel (v + step) else []

/-- The values visited by `for (v = lo; v <= hi; v += step)` for `step > 0`
(the only case in which the C++ loop terminates with a non-trivial body; for
`step ≤ 0` the source loop runs zero times when `lo > hi` and diverges
otherwise, and `sweep` returns `[]`). -/
def sweep (step hi lo : ℚ) : List ℚ :=
  if 0 < step then sweepFuel step hi (⌊(hi - lo) / step⌋.toNat + 1) lo else []

/-- The candidate test of `SimpleSlicer::slice`'s inner loop, verbatim:
`(v1.z <= z && z <= v2.z) || (v2.z <= z && z <= v3.z) || (v3.z <= z && z <= v1.z)`. -/
def candidate (t : Triangle) (z : ℚ) : Bool :=
  decide ((t.v1.z ≤ z ∧ z ≤ t.v2.z) ∨ (t.v2.z ≤ z ∧ z ≤ t.v3.z) ∨
    (t.v3.z ≤ z ∧ z ≤ t.v1.z))

/-- `SimpleSlicer::calculateIntersection`: interpolate along v1→v2 (parameter
`t1`) and along v2→v3 (parameter `t2`), average the X and Y of the two
interpolated points, and pin Z at the plane height.  When an edge has zero Z
extent the C++ divides by zero (non-finite `t`); in `ℚ` the division yields
`0` — no theorem below depends on the X/Y produced in that case, and the Z
component is the literal `z` either way. -/
def calculateIntersection (t : Triangle) (z : ℚ) : Vector3 :=
  let t1 := (z - t.v1.z) / (t.v2.z - t.v1.z)
  let t2 := (z - t.v2.z) / (t.v3.z - t.v2.z)
  let p1 : Vector3 := ⟨t.v1.x + t1 * (t.v2.x - t.v1.x),
                       t.v1.y + t1 * (t.v2.y - t.v1.y), z⟩
  let p2 : Vector3 := ⟨t.v2.x + t2 * (t.v3.x - t.v2.x),
                       t.v2.y + t2 * (t.v3.y - t.v2.y), z⟩
  ⟨(p1.x + p2.x) / 2, (p1.y + p2.y) / 2, z⟩

/-- The `intersections` vector built by `SimpleSlicer::slice` at plane height
`z`: one intersection point per candidate triangle, in triangle-scan order. -/
def intersectionsAt (triangles : List Triangle) (z : ℚ) : List Vector3 :=
  (triangles.filter (fun t => candidate t z)).map (fun t => calculateIntersection t z)

/-- `SimpleSlicer::generateInfill`: recomputes the mesh bounding box, then
sweeps X from `minX` while `x <= maxX` in steps of `spacing / density`
(`spacing = 2.0`, `density = infillDensity / 100`), emitting the vertical
segment `(x, minY, z) – (x, maxY, z)` at each step.  The `contour` parameter
is accepted and ignored, as in the source. -/
def generateInfill (triangles : List Triangle) (infillDensity : ℚ)
    (contour : List Vector3) (z : ℚ) : List (List Vector3) :=
  let bbox := getBoundingBox triangles
  let minX := bbox.getD 0 0
  let maxX := bbox.getD 3 0
  let minY := bbox.getD 1 0
  let maxY := bbox.getD 4 0
  let spacing : ℚ := 2
  let density := infillDensity / 100
  (sweep (spacing / density) maxX minX).map
    (fun x => [⟨x, minY, z⟩, ⟨x, maxY, z⟩])

/-- The body of `SimpleSlicer::slice`'s outer loop at one plane height `z`:
collect intersections; if non-empty they become the single contour and the
infill is generated, otherwise the layer is emitted empty. -/
def layerAt (s : SimpleSlicer) (z : ℚ) : Layer :=
  let intersections := intersectionsAt s.triangles z
  if intersections.isEmpty then ⟨z, [], []⟩
  else ⟨z, [intersections], generateInfill s.triangles s.infillDensity intersections z⟩

/-- `SimpleSlicer::slice`: one layer per plane height from `minZ` to `maxZ`
(inclusive) in steps of `layerHeight`. -/
def slice (s : SimpleSlicer) : List Layer :=
  let bbox := getBoundingBox s.triangles
  let minZ := bbox.getD 2 0
  let maxZ := bbox.getD 5 0
  (sweep s.layerHeight maxZ minZ).map (fun z => layerAt s z)

/-- One emitted G-code line of `SimpleSlicer::generateGCode`, with its numeric
payload; fixed text (feed rates, comment words, blank separator lines) lives
in the rendering `renderLine`. -/
inductive GLine where
  | genComment : GLine
  | layerHeightComment : ℚ → GLine
  | infillDensityComment : ℚ → GLine
  | g21 : GLine
  | g90 : GLine
  | m82 : GLine
  | layerComment : ℕ → ℚ → GLine
  | g0z : ℚ → GLine
  | g0xy : ℚ → ℚ → GLine
  | g1move : ℚ → ℚ → ℚ → GLine
  | m84 : GLine
deriving DecidableEq, Repr

/-- The extrusion moves for the points of a contour after its first one:
`for (j = 1; ...) { e += 0.1; G1 X.. Y.. E<e> }`.  Returns the emitted lines
and the accumulator after the loop. -/
def extrudeMoves (e : ℚ) : List Vector3 → List GLine × ℚ
  | [] => ([], e)
  | p :: ps =>
      let e1 := e + 1/10
      let r := extrudeMoves e1 ps
      (GLine.g1move p.x p.y e1 :: r.1, r.2)

/-- The G-code for one contour of a layer at height `z`: skipped when empty
(`if (contour.empty()) continue`), otherwise a Z move, a rapid move to the
first point, then the extrusion moves. -/
def contourGCode (z e : ℚ) : List Vector3 → List GLine × ℚ
  | [] => ([], e)
  | p0 :: rest =>
      let r := extrudeMoves e rest
      (GLine.g0z z :: GLine.g0xy p0.x p0.y :: r.1, r.2)

/-- `for (const auto& contour : layer.contours)`. -/
def gcodeContours (z e : ℚ) : List (List Vector3) → List GLine × ℚ
  | [] => ([], e)
  | c :: cs =>
      let r := contourGCode z e c
      let r2 := gcodeContours z r.2 cs
      (r.1 ++ r2.1, r2.2)

/-- The G-code for one infill line at height `z`: skipped when it has fewer
than 2 points (`if (infillLine.size() < 2) continue`), otherwise a Z move, a
rapid move to endpoint 0, then one extrusion move to endpoint 1 with
`e += 0.05`. -/
def infillLineGCode (z e : ℚ) : List Vector3 → List GLine × ℚ
  | p0 :: p1 :: _ =>
      ([GLine.g0z z, GLine.g0xy p0.x p0.y, GLine.g1move p1.x p1.y (e + 1/20)],
       e + 1/20)
  | _ => ([], e)

/-- `for (const auto& infillLine : layer.infill)`. -/
def gcodeInfills (z e : ℚ) : List (List Vector3) → List GLine × ℚ
  | [] => ([], e)
  | l :: ls =>
      let r := infillLineGCode z e l
      let r2 := gcodeInfills z r.2 ls
      (r.1 ++ r2.1, r2.2)

/-- The layer loop of `generateGCode` (`for (i = 0; i < layers.size(); i++)`):
a layer comment, the contours, then the infill, threading the extrusion
accumulator. -/
def gcodeLayers (i : ℕ) (e : ℚ) : List Layer → List GLine × ℚ
  | [] => ([], e)
  | L :: rest =>
      let rc := gcodeContours L.height e L.contours
      let ri := gcodeInfills L.height rc.2 L.infill
      let rr := gcodeLayers (i + 1) ri.2 rest
      (GLine.layerComment i L.height :: (rc.1 ++ ri.1 ++ rr.1), rr.2)

/-- The fixed header of `generateGCode` (comments echoing the configuration,
then `G21`, `G90`, `M82`). -/
def gcodeHeader (s : SimpleSlicer) : List GLine :=
  [GLine.genComment, GLine.layerHeightComment s.layerHeight,
   GLine.infillDensityComment s.infillDensity,
   GLine.g21, GLine.g90, GLine.m82]

/-- `SimpleSlicer::generateGCode`: slices, emits header, per-layer body with
the extrusion accumulator starting at `0.0`, then the final lift to
`layers.back().height + 10` and `M84`.  `layers.back()` on an empty layer
sequence is undefined behaviour in C++ and is modelled as `none` (it is proven
below never to occur when `layerHeight > 0`). -/
def generateGCode (s : SimpleSlicer) : Option (List GLine) :=
  let layers := slice s
  match layers.getLast? with
  | none => none
  | some lastL =>
      some (gcodeHeader s ++ (gcodeLayers 0 0 layers).1 ++
        [GLine.g0z (lastL.height + 10), GLine.m84])

/-- Fixed injective rendering of a rational, abstracting the C++ `ostream`
formatting of `double`. -/
def numStr (q : ℚ) : String :=
  if q.den = 1 then toString q.num else toString q.num ++ ("/") ++ toString q.den

/-- The text of one G-code line (feed rates and fixed words as in the source;
the blank separator lines of the header are attached to `m82`). -/
def renderLine : GLine → String
  | GLine.genComment => "; Generated by WASM Slicer"
  | GLine.layerHeightComment h => "; Layer height: " ++ numStr h ++ ("mm")
  | GLine.infillDensityComment d => "; Infill density: " ++ numStr d ++ ("%")
  | GLine.g21 => "G21 ; Set units to mm"
  | GLine.g90 => "G90 ; Absolute positioning"
  | GLine.m82 => "M82 ; Extruder absolute mode"
  | GLine.layerComment i z => "; Layer " ++ toString i ++ (" at Z=") ++ numStr z
  | GLine.g0z z => "G0 Z" ++ numStr z ++ (" F1200")
  | GLine.g0xy x y => "G0 X" ++ numStr x ++ (" Y") ++ numStr y ++ (" F3000")
  | GLine.g1move x y e =>
      "G1 X" ++ numStr x ++ (" Y") ++ numStr y ++ (" E") ++ numStr e ++ (" F1800")
  | GLine.m84 => "M84 ; Disable steppers"

/-- The G-code as text: the rendered lines joined by newlines (`none` exactly
when `generateGCode` hits the `layers.back()` undefined behaviour). -/
def gcodeText (s : SimpleSlicer) : Option String :=
  (generateGCode s).map (fun ls => String.intercalate ("\n") (ls.map renderLine))

/-- The structured content of `SimpleSlicer::getLayerInfo`'s JSON text:
configuration echo, total layer count, bounding box, and per layer its height,
contour count and infill count, in layer order. -/
structure LayerInfo where
  layerHeight : ℚ
  infillDensity : ℚ
  totalLayers : ℕ
  boundingBox : List ℚ
  layers : List (ℚ × ℕ × ℕ)
deriving DecidableEq, Repr

/-- `SimpleSlicer::getLayerInfo`: slices and reports the counts (the JSON
serialization of this record is the returned string). -/
def getLayerInfo (s : SimpleSlicer) : LayerInfo :=
  let layers := slice s
  { layerHeight := s.layerHeight
    infillDensity := s.infillDensity
    totalLayers := layers.length
    boundingBox := getBoundingBox s.triangles
    layers := layers.map (fun L => (L.height, L.contours.length, L.infill.length)) }

/-- The E values appearing on the extrusion (`G1`) lines, in emission order. -/
def eVals (ls : List GLine) : List ℚ :=
  ls.filterMap (fun l => match l with
    | GLine.g1move _ _ e => some e
    | _ => none)

/-- Whether a line is a per-layer comment (`"; Layer i at Z=h"`). -/
def isLayerCmt : GLine → Bool
  | GLine.layerComment _ _ => true
  | _ => false

/-- One step of the extrusion accumulator: `+0.1` (contour segment) or
`+0.05` (infill line). -/
def EStep (a b : ℚ) : Prop := b = a + 1/10 ∨ b = a + 1/20

/-- One contour-segment step of the accumulator: `e += 0.1`. -/
def R10 (a b : ℚ) : Prop := b = a + 1/10

/-- One infill-line step of the accumulator: `e += 0.05`. -/
def R20 (a b : ℚ) : Prop := b = a + 1/20

/-- The accumulator invariant of an emission fragment: starting from `e0`, the
E values on the fragment's `G1` lines form an `R`-chain, and the fragment's
final accumulator is the last E value (or `e0` when the fragment extrudes
nothing). -/
def IncrRun (R : ℚ → ℚ → Prop) (e0 : ℚ) (p : List GLine × ℚ) : Prop :=
  List.Chain R e0 (eVals p.1) ∧ p.2 = (eVals p.1).getLastD e0

/-- The slicer state used for concrete evaluations: the synthetic cube with
`layerHeight = 2`, `infillDensity = 20` (the spec's end-to-end scenario). -/
def testSlicer : SimpleSlicer :=
  { triangles := createTestCube, layerHeight := 2, infillDensity := 20 }

/-- The same configuration as `testSlicer`, written differently, for the
determinism witness. -/
def testSlicer2 : SimpleSlicer :=
  { triangles := createTestCube, layerHeight := 4/2, infillDensity := 10 + 10 }

/-- Accessor for `bbox[0]` (`minX`). -/
def bboxMinX (ts : List Triangle) : ℚ := (getBoundingBox ts).getD 0 0

/-- Accessor for `bbox[1]` (`minY`). -/
def bboxMinY (ts : List Triangle) : ℚ := (getBoundingBox ts).getD 1 0

/-- Accessor for `bbox[2]` (`minZ`). -/
def bboxMinZ (ts : List Triangle) : ℚ := (getBoundingBox ts).getD 2 0

/-- Accessor for `bbox[3]` (`maxX`). -/
def bboxMaxX (ts : List Triangle) : ℚ := (getBoundingBox ts).getD 3 0

/-- Accessor for `bbox[4]` (`maxY`). -/
def bboxMaxY (ts : List Triangle) : ℚ := (getBoundingBox ts).getD 4 0

/-- Accessor for `bbox[5]` (`maxZ`). -/
def bboxMaxZ (ts : List Triangle) : ℚ := (getBoundingBox ts).getD 5 0

/-! ### Loop sweep lemmas -/

theorem sweepFuel_nil_of_lt {step hi lo : ℚ} (h : hi < lo) (f : ℕ) :
    sweepFuel step hi f lo = [] := by
  cases f with
  | zero => rfl
  | succ f => simp [sweepFuel, not_le.2 h]

theorem sweepFuel_spec {step : ℚ} (hs : 0 < step) (hi : ℚ) :
    ∀ (n : ℕ) (lo : ℚ), lo ≤ hi → (⌊(hi - lo) / step⌋).toNat = n →
      ∀ f, n + 1 ≤ f →
        sweepFuel step hi f lo = (List.range (n + 1)).map (fun i : ℕ => lo + (i : ℚ) * step) := by
  intro n
  induction n with
  | zero =>
      intro lo hlo hfl f hf
      obtain ⟨f, rfl⟩ : ∃ f', f = f' + 1 := ⟨f - 1, by omega⟩
      have hnn : (0 : ℚ) ≤ (hi - lo) / step :=
        div_nonneg (sub_nonneg.2 hlo) hs.le
      have hfl0 : ⌊(hi - lo) / step⌋ = 0 := by
        have h1 : ⌊(hi - lo) / step⌋ ≤ 0 := Int.toNat_eq_zero.mp hfl
        have h2 : 0 ≤ ⌊(hi - lo) / step⌋ := Int.floor_nonneg.2 hnn
        omega
      have hlt : hi - lo < step := by
        have := (Int.floor_eq_zero_iff.mp hfl0).2
        exact (div_lt_one hs).mp this
      have hnext : hi < lo + step := by linarith
      simp only [sweepFuel, if_pos hlo, sweepFuel_nil_of_lt hnext]
      rw [show List.range 1 = [0] from rfl]
      simp
  | succ n ih =>
      intro lo hlo hfl f hf
      obtain ⟨f, rfl⟩ : ∃ f', f = f' + 1 := ⟨f - 1, by omega⟩
      have hnn : (0 : ℚ) ≤ (hi - lo) / step :=
        div_nonneg (sub_nonneg.2 hlo) hs.le
      have hge : 0 ≤ ⌊(hi - lo) / step⌋ := Int.floor_nonneg.2 hnn
      have hfl' : ⌊(hi - lo) / step⌋ = (n : ℤ) + 1 := by omega
      have h1le : (1 : ℚ) ≤ (hi - lo) / step := by
        have : (1 : ℤ) ≤ ⌊(hi - lo) / step⌋ := by omega
        exact_mod_cast Int.le_floor.mp this
      have hstep : step ≤ hi - lo := (one_le_div hs).mp h1le
      have hlo' : lo + step ≤ hi := by linarith
      have harith : (hi - (lo + step)) / step = (hi - lo) / step - 1 := by
        field_simp
        ring
      have hfl2 : (⌊(hi - (lo + step)) / step⌋).toNat = n := by
        rw [harith, Int.floor_sub_one, hfl']
        omega
      have hrec := ih (lo + step) hlo' hfl2 f (by omega)
      simp only [sweepFuel, if_pos hlo, hrec]
      conv_rhs => rw [List.range_succ_eq_map]
      simp only [List.map_cons, List.map_map]
      congr 1
      · simp
      · refine List.map_congr_left fun i _ => ?_
        simp only [Function.comp_apply]
        push_cast
        ring

theorem sweep_eq {step hi lo : ℚ} (hs : 0 < step) (hlo : lo ≤ hi) :
    sweep step hi lo =
      (List.range ((⌊(hi - lo) / step⌋).toNat + 1)).map (fun i : ℕ => lo + (i : ℚ) * step) := by
  rw [sweep, if_pos hs]
  exact sweepFuel_spec hs hi _ lo hlo rfl _ le_rfl

theorem sweep_length {step hi lo : ℚ} (hs : 0 < step) (hlo : lo ≤ hi) :
    (sweep step hi lo).length = (⌊(hi - lo) / step⌋).toNat + 1 := by
  simp [sweep_eq hs hlo]

theorem sweep_getElem {step hi lo : ℚ} (hs : 0 < step) (hlo : lo ≤ hi)
    (i : ℕ) (h : i < (sweep step hi lo).length) :
    (sweep step hi lo)[i] = lo + (i : ℚ) * step := by
  have h' : i < ((List.range ((⌊(hi - lo) / step⌋).toNat + 1)).map
      (fun i : ℕ => lo + i * step)).length := by
    rw [← sweep_eq hs hlo]; exact h
  calc (sweep step hi lo)[i]
      = ((List.range ((⌊(hi - lo) / step⌋).toNat + 1)).map
          (fun i : ℕ => lo + i * step))[i] := by
        congr 1
        exact sweep_eq hs hlo
    _ = lo + (i : ℚ) * step := by
        simp

theorem sweep_ne_nil {step hi lo : ℚ} (hs : 0 < step) (hlo : lo ≤ hi) :
    sweep step hi lo ≠ [] := by
  have := sweep_length hs hlo
  intro h
  rw [h] at this
  simp at this

/-! ### Bounding-box lemmas -/

theorem foldl_min_le_init (g : Triangle → ℚ) :
    ∀ (l : List Triangle) (a : ℚ), l.foldl (fun acc t => min acc (g t)) a ≤ a := by
  intro l
  induction l with
  | nil => intro a; simp
  | cons t l ih =>
      intro a
      calc (t :: l).foldl (fun acc t => min acc (g t)) a
          = l.foldl (fun acc t => min acc (g t)) (min a (g t)) := rfl
        _ ≤ min a (g t) := ih _
        _ ≤ a := min_le_left _ _

theorem le_foldl_max_init (g : Triangle → ℚ) :
    ∀ (l : List Triangle) (a : ℚ), a ≤ l.foldl (fun acc t => max acc (g t)) a := by
  intro l
  induction l with
  | nil => intro a; simp
  | cons t l ih =>
      intro a
      calc a ≤ max a (g t) := le_max_left _ _
        _ ≤ l.foldl (fun acc t => max acc (g t)) (max a (g t)) := ih _
        _ = (t :: l).foldl (fun acc t => max acc (g t)) a := rfl

theorem foldl_min_le_mem (g : Triangle → ℚ) :
    ∀ (l : List Triangle) (a : ℚ) (t : Triangle), t ∈ l →
      l.foldl (fun acc t => min acc (g t)) a ≤ g t := by
  intro l
  induction l with
  | nil => intro a t ht; cases ht
  | cons u l ih =>
      intro a t ht
      rcases List.mem_cons.mp ht with h | h
      · subst h
        calc (t :: l).foldl (fun acc t => min acc (g t)) a
            = l.foldl (fun acc t => min acc (g t)) (min a (g t)) := rfl
          _ ≤ min a (g t) := foldl_min_le_init g l _
          _ ≤ g t := min_le_right _ _
      · exact ih _ t h

theorem le_foldl_max_mem (g : Triangle → ℚ) :
    ∀ (l : List Triangle) (a : ℚ) (t : Triangle), t ∈ l →
      g t ≤ l.foldl (fun acc t => max acc (g t)) a := by
  intro l
  induction l with
  | nil => intro a t ht; cases ht
  | cons u l ih =>
      intro a t ht
      rcases List.mem_cons.mp ht with h | h
      · subst h
        calc g t ≤ max a (g t) := le_max_right _ _
          _ ≤ l.foldl (fun acc t => max acc (g t)) (max a (g t)) := le_foldl_max_init g l _
          _ = (t :: l).foldl (fun acc t => max acc (g t)) a := rfl
      · exact ih _ t h

theorem bboxMinZ_le_bboxMaxZ (ts : List Triangle) : bboxMinZ ts ≤ bboxMaxZ ts := by
  cases ts with
  | nil => simp [bboxMinZ, bboxMaxZ, getBoundingBox]
  | cons t0 rest =>
      show (t0 :: rest).foldl (fun a t => min a (min t.v1.z (min t.v2.z t.v3.z))) t0.v1.z ≤
        (t0 :: rest).foldl (fun a t => max a (max t.v1.z (max t.v2.z t.v3.z))) t0.v1.z
      calc (t0 :: rest).foldl (fun a t => min a (min t.v1.z (min t.v2.z t.v3.z))) t0.v1.z
          ≤ t0.v1.z := foldl_min_le_init _ _ _
        _ ≤ (t0 :: rest).foldl (fun a t => max a (max t.v1.z (max t.v2.z t.v3.z))) t0.v1.z :=
            le_foldl_max_init _ _ _

theorem bboxMinX_le_bboxMaxX (ts : List Triangle) : bboxMinX ts ≤ bboxMaxX ts := by
  cases ts with
  | nil => simp [bboxMinX, bboxMaxX, getBoundingBox]
  | cons t0 rest =>
      show (t0 :: rest).foldl (fun a t => min a (min t.v1.x (min t.v2.x t.v3.x))) t0.v1.x ≤
        (t0 :: rest).foldl (fun a t => max a (max t.v1.x (max t.v2.x t.v3.x))) t0.v1.x
      calc (t0 :: rest).foldl (fun a t => min a (min t.v1.x (min t.v2.x t.v3.x))) t0.v1.x
          ≤ t0.v1.x := foldl_min_le_init _ _ _
        _ ≤ (t0 :: rest).foldl (fun a t => max a (max t.v1.x (max t.v2.x t.v3.x))) t0.v1.x :=
            le_foldl_max_init _ _ _

theorem min3_le {a b c x : ℚ} (h : x = a ∨ x = b ∨ x = c) : min a (min b c) ≤ x := by
  rcases h with rfl | rfl | rfl
  · exact min_le_left _ _
  · exact le_trans (min_le_right _ _) (min_le_left _ _)
  · exact le_trans (min_le_right _ _) (min_le_right _ _)

theorem le_max3 {a b c x : ℚ} (h : x = a ∨ x = b ∨ x = c) : x ≤ max a (max b c) := by
  rcases h with rfl | rfl | rfl
  · exact le_max_left _ _
  · exact le_trans (le_max_left _ _) (le_max_right _ _)
  · exact le_trans (le_max_right _ _) (le_max_right _ _)

theorem bbox_cover (ts : List Triangle) (t : Triangle) (ht : t ∈ ts) (v : Vector3)
    (hv : v = t.v1 ∨ v = t.v2 ∨ v = t.v3) :
    bboxMinX ts ≤ v.x ∧ v.x ≤ bboxMaxX ts ∧
    bboxMinY ts ≤ v.y ∧ v.y ≤ bboxMaxY ts ∧
    bboxMinZ ts ≤ v.z ∧ v.z ≤ bboxMaxZ ts := by
  cases ts with
  | nil => cases ht
  | cons t0 rest =>
      have hvx : v.x = t.v1.x ∨ v.x = t.v2.x ∨ v.x = t.v3.x := by
        rcases hv with rfl | rfl | rfl <;> simp
      have hvy : v.y = t.v1.y ∨ v.y = t.v2.y ∨ v.y = t.v3.y := by
        rcases hv with rfl | rfl | rfl <;> simp
      have hvz : v.z = t.v1.z ∨ v.z = t.v2.z ∨ v.z = t.v3.z := by
        rcases hv with rfl | rfl | rfl <;> simp
      refine ⟨?_, ?_, ?_, ?_, ?_, ?_⟩
      · exact le_trans
          (foldl_min_le_mem (fun t => min t.v1.x (min t.v2.x t.v3.x)) _ _ t ht)
          (min3_le hvx)
      · exact le_trans (le_max3 hvx)
          (le_foldl_max_mem (fun t => max t.v1.x (max t.v2.x t.v3.x)) _ _ t ht)
      · exact le_trans
          (foldl_min_le_mem (fun t => min t.v1.y (min t.v2.y t.v3.y)) _ _ t ht)
          (min3_le hvy)
      · exact le_trans (le_max3 hvy)
          (le_foldl_max_mem (fun t => max t.v1.y (max t.v2.y t.v3.y)) _ _ t ht)
      · exact le_trans
          (foldl_min_le_mem (fun t => min t.v1.z (min t.v2.z t.v3.z)) _ _ t ht)
          (min3_le hvz)
      · exact le_trans (le_max3 hvz)
          (le_foldl_max_mem (fun t => max t.v1.z (max t.v2.z t.v3.z)) _ _ t ht)

theorem bboxMinY_le_bboxMaxY (ts : List Triangle) : bboxMinY ts ≤ bboxMaxY ts := by
  cases ts with
  | nil => simp [bboxMinY, bboxMaxY, getBoundingBox]
  | cons t0 rest =>
      show (t0 :: rest).foldl (fun a t => min a (min t.v1.y (min t.v2.y t.v3.y))) t0.v1.y ≤
        (t0 :: rest).foldl (fun a t => max a (max t.v1.y (max t.v2.y t.v3.y))) t0.v1.y
      calc (t0 :: rest).foldl (fun a t => min a (min t.v1.y (min t.v2.y t.v3.y))) t0.v1.y
          ≤ t0.v1.y := foldl_min_le_init _ _ _
        _ ≤ (t0 :: rest).foldl (fun a t => max a (max t.v1.y (max t.v2.y t.v3.y))) t0.v1.y :=
            le_foldl_max_init _ _ _

/-! ### Layer and slice helpers -/

theorem layerAt_height (s : SimpleSlicer) (z : ℚ) : (layerAt s z).height = z := by
  simp only [layerAt]
  split <;> rfl

theorem layerAt_of_empty (s : SimpleSlicer) (z : ℚ)
    (h : intersectionsAt s.triangles z = []) : layerAt s z = ⟨z, [], []⟩ := by
  simp only [layerAt, h]
  rfl

theorem slice_eq_map (s : SimpleSlicer) :
    slice s = (sweep s.layerHeight (bboxMaxZ s.triangles) (bboxMinZ s.triangles)).map
      (fun z => layerAt s z) := rfl

theorem slice_ne_nil (s : SimpleSlicer) (hh : 0 < s.layerHeight) : slice s ≠ [] := by
  rw [slice_eq_map]
  intro h
  exact sweep_ne_nil hh (bboxMinZ_le_bboxMaxZ s.triangles) (List.map_eq_nil_iff.mp h)

theorem generateGCode_isSome (s : SimpleSlicer) (hh : 0 < s.layerHeight) :
    (generateGCode s).isSome = true := by
  have hne := slice_ne_nil s hh
  rw [generateGCode]
  rcases List.getLast?_isSome.mpr hne |> Option.isSome_iff_exists.mp with ⟨L, hL⟩
  rw [hL]
  rfl

/-! ### Claim theorems -/

/-- C5: `getBoundingBox` returns six scalars `[minX, minY, minZ, maxX, maxY,
maxZ]` with `min ≤ max` on each axis, covering every vertex of every triangle,
and returns exactly `[0, 0, 0, 0, 0, 0]` for a mesh with no triangles. -/
theorem getBoundingBox_spec (ts : List Triangle) :
    (getBoundingBox ts).length = 6
    ∧ bboxMinX ts ≤ bboxMaxX ts ∧ bboxMinY ts ≤ bboxMaxY ts ∧ bboxMinZ ts ≤ bboxMaxZ ts
    ∧ (∀ t, t ∈ ts → ∀ v, v = t.v1 ∨ v = t.v2 ∨ v = t.v3 →
        bboxMinX ts ≤ v.x ∧ v.x ≤ bboxMaxX ts ∧
        bboxMinY ts ≤ v.y ∧ v.y ≤ bboxMaxY ts ∧
        bboxMinZ ts ≤ v.z ∧ v.z ≤ bboxMaxZ ts)
    ∧ (ts = [] → getBoundingBox ts = [0, 0, 0, 0, 0, 0]) := by
  refine ⟨?_, bboxMinX_le_bboxMaxX ts, bboxMinY_le_bboxMaxY ts, bboxMinZ_le_bboxMaxZ ts,
    fun t ht v hv => bbox_cover ts t ht v hv, fun h => by subst h; rfl⟩
  cases ts <;> rfl

theorem getBoundingBox_spec_witness :
    (getBoundingBox createTestCube).length = 6
    ∧ bboxMinX createTestCube ≤ bboxMaxX createTestCube
    ∧ bboxMinY createTestCube ≤ bboxMaxY createTestCube
    ∧ bboxMinZ createTestCube ≤ bboxMaxZ createTestCube
    ∧ (∀ t, t ∈ createTestCube → ∀ v, v = t.v1 ∨ v = t.v2 ∨ v = t.v3 →
        bboxMinX createTestCube ≤ v.x ∧ v.x ≤ bboxMaxX createTestCube ∧
        bboxMinY createTestCube ≤ v.y ∧ v.y ≤ bboxMaxY createTestCube ∧
        bboxMinZ createTestCube ≤ v.z ∧ v.z ≤ bboxMaxZ createTestCube)
    ∧ (createTestCube = [] → getBoundingBox createTestCube = [0, 0, 0, 0, 0, 0]) :=
  getBoundingBox_spec createTestCube

/-- C9: `parseSTL` returns `true` and replaces the stored triangle list with
the fixed 12-triangle synthetic cube of side 10 centred at the origin,
independent of the input; afterwards `getBoundingBox` returns exactly
`[-5, -5, -5, 5, 5, 5]`. -/
theorem parseSTL_spec (s : SimpleSlicer) (input : String) :
    (parseSTL s input).1 = true
    ∧ (parseSTL s input).2.triangles = createTestCube
    ∧ createTestCube.length = 12
    ∧ (∀ input2 : String, parseSTL s input2 = parseSTL s input)
    ∧ getBoundingBox (parseSTL s input).2.triangles = [-5, -5, -5, 5, 5, 5] := by
  refine ⟨rfl, rfl, rfl, fun _ => rfl, ?_⟩
  show getBoundingBox createTestCube = [-5, -5, -5, 5, 5, 5]
  with_unfolding_all decide

theorem parseSTL_spec_witness :
    (parseSTL testSlicer ("")).1 = true
    ∧ (parseSTL testSlicer ("")).2.triangles = createTestCube
    ∧ createTestCube.length = 12
    ∧ (∀ input2 : String, parseSTL testSlicer input2 = parseSTL testSlicer (""))
    ∧ getBoundingBox (parseSTL testSlicer ("")).2.triangles = [-5, -5, -5, 5, 5, 5] :=
  parseSTL_spec testSlicer ("")

/-- C1: with `layerHeight > 0`, `slice` produces exactly
`⌊(maxZ - minZ) / layerHeight⌋ + 1` layers, the layer at index `i` has height
`minZ + i * layerHeight`, and a plane height at which no triangle passes the
candidate test still yields a layer, with empty contour sequence and empty
infill. -/
theorem slice_layers_spec (s : SimpleSlicer) (hh : 0 < s.layerHeight) :
    (slice s).length
        = (⌊(bboxMaxZ s.triangles - bboxMinZ s.triangles) / s.layerHeight⌋).toNat + 1
    ∧ (∀ i (hi : i < (slice s).length),
        ((slice s)[i]).height = bboxMinZ s.triangles + (i : ℚ) * s.layerHeight)
    ∧ (∀ i (hi : i < (slice s).length),
        s.triangles.filter (fun t => candidate t (((slice s)[i]).height)) = [] →
        ((slice s)[i]).contours = [] ∧ ((slice s)[i]).infill = []) := by
  have hz := bboxMinZ_le_bboxMaxZ s.triangles
  have hlen : (slice s).length
      = (⌊(bboxMaxZ s.triangles - bboxMinZ s.triangles) / s.layerHeight⌋).toNat + 1 := by
    rw [slice_eq_map, List.length_map, sweep_length hh hz]
  have hget : ∀ i (hi : i < (slice s).length),
      (slice s)[i] = layerAt s
        (bboxMinZ s.triangles + (i : ℚ) * s.layerHeight) := by
    intro i hi
    have hi' : i < (sweep s.layerHeight (bboxMaxZ s.triangles) (bboxMinZ s.triangles)).length := by
      rw [slice_eq_map, List.length_map] at hi
      exact hi
    rw [List.getElem_of_eq (slice_eq_map s) hi, List.getElem_map]
    congr 1
    exact sweep_getElem hh hz i hi'
  have hheight : ∀ i (hi : i < (slice s).length),
      ((slice s)[i]).height = bboxMinZ s.triangles + (i : ℚ) * s.layerHeight := by
    intro i hi
    rw [hget i hi, layerAt_height]
  refine ⟨hlen, hheight, ?_⟩
  intro i hi hfilter
  rw [hheight i hi] at hfilter
  have hinter : intersectionsAt s.triangles
      (bboxMinZ s.triangles + (i : ℚ) * s.layerHeight) = [] := by
    rw [intersectionsAt, hfilter]
    rfl
  rw [hget i hi, layerAt_of_empty s _ hinter]
  exact ⟨rfl, rfl⟩

theorem slice_layers_spec_witness :
    0 < testSlicer.layerHeight
    ∧ ((slice testSlicer).length
        = (⌊(bboxMaxZ testSlicer.triangles - bboxMinZ testSlicer.triangles)
            / testSlicer.layerHeight⌋).toNat + 1
    ∧ (∀ i (hi : i < (slice testSlicer).length),
        ((slice testSlicer)[i]).height
          = bboxMinZ testSlicer.triangles + (i : ℚ) * testSlicer.layerHeight)
    ∧ (∀ i (hi : i < (slice testSlicer).length),
        testSlicer.triangles.filter
            (fun t => candidate t (((slice testSlicer)[i]).height)) = [] →
        ((slice testSlicer)[i]).contours = []
          ∧ ((slice testSlicer)[i]).infill = [])) :=
  ⟨by norm_num [testSlicer], slice_layers_spec testSlicer (by norm_num [testSlicer])⟩

/-- C10: for every mesh and `layerHeight > 0`, the bounding box satisfies
`minZ ≤ maxZ`, `slice` returns a non-empty layer sequence, and the
`layers.back()` access in `generateGCode` is in bounds (the result is
`some`). -/
theorem slice_nonempty_safe (s : SimpleSlicer) (hh : 0 < s.layerHeight) :
    bboxMinZ s.triangles ≤ bboxMaxZ s.triangles
    ∧ slice s ≠ []
    ∧ (generateGCode s).isSome = true :=
  ⟨bboxMinZ_le_bboxMaxZ s.triangles, slice_ne_nil s hh, generateGCode_isSome s hh⟩

/-- The spec's wording of the per-edge bracketing test, for comparison with
the source's `candidate`: endpoint Z values bracket `z` inclusively, accepted
in both orientations of the edge. -/
def bracketsSpec (a b z : ℚ) : Prop := (a ≤ z ∧ z ≤ b) ∨ (b ≤ z ∧ z ≤ a)

/-- The spec's wording of candidacy: some edge of the triangle (v1–v2, v2–v3,
v3–v1) brackets `z`, in either orientation. -/
def candidateSpec (t : Triangle) (z : ℚ) : Prop :=
  bracketsSpec t.v1.z t.v2.z z ∨ bracketsSpec t.v2.z t.v3.z z ∨
    bracketsSpec t.v3.z t.v1.z z

/-- C2: the slicing scan treats a triangle as a candidate at `z` exactly when
some edge brackets `z` inclusively in either orientation (the source tests
each edge in one cyclic orientation only, but the two tests accept the same
triangles), and each candidate contributes exactly one intersection point to
the layer's contour sequence. -/
theorem candidate_iff_spec (t : Triangle) (z : ℚ) (tris : List Triangle) :
    (candidate t z = true ↔ candidateSpec t z)
    ∧ (intersectionsAt tris z).length = (tris.filter (fun u => candidate u z)).length := by
  constructor
  · rw [candidate, decide_eq_true_eq]
    constructor
    · rintro (h | h | h)
      · exact Or.inl (Or.inl h)
      · exact Or.inr (Or.inl (Or.inl h))
      · exact Or.inr (Or.inr (Or.inl h))
    · rintro ((⟨h1, h2⟩ | ⟨h1, h2⟩) | (⟨h1, h2⟩ | ⟨h1, h2⟩) | (⟨h1, h2⟩ | ⟨h1, h2⟩))
      · exact Or.inl ⟨h1, h2⟩
      · rcases le_total z t.v3.z with h3 | h3
        · exact Or.inr (Or.inl ⟨h1, h3⟩)
        · exact Or.inr (Or.inr ⟨h3, h2⟩)
      · exact Or.inr (Or.inl ⟨h1, h2⟩)
      · rcases le_total z t.v1.z with h3 | h3
        · exact Or.inr (Or.inr ⟨h1, h3⟩)
        · exact Or.inl ⟨h3, h2⟩
      · exact Or.inr (Or.inr ⟨h1, h2⟩)
      · rcases le_total z t.v2.z with h3 | h3
        · exact Or.inl ⟨h1, h3⟩
        · exact Or.inr (Or.inl ⟨h3, h2⟩)
  · rw [intersectionsAt, List.length_map]

theorem candidate_iff_spec_witness :
    (candidate ⟨⟨0, 0, 5⟩, ⟨0, 1, 0⟩, ⟨1, 0, 10⟩⟩ 3 = true ↔
      candidateSpec ⟨⟨0, 0, 5⟩, ⟨0, 1, 0⟩, ⟨1, 0, 10⟩⟩ 3)
    ∧ (intersectionsAt createTestCube 3).length
        = (createTestCube.filter (fun u => candidate u 3)).length :=
  candidate_iff_spec ⟨⟨0, 0, 5⟩, ⟨0, 1, 0⟩, ⟨1, 0, 10⟩⟩ 3 createTestCube

/-- C3: for `infillDensity > 0`, the generated infill is the sequence of
two-point segments from `(x, minY, z)` to `(x, maxY, z)` over the mesh-wide
bounding box, at `x = minX + i * (2 / (density/100))` while `x ≤ maxX`, and
it is independent of the contour argument. -/
theorem generateInfill_spec (tris : List Triangle) (d : ℚ) (hd : 0 < d)
    (contour : List Vector3) (z : ℚ) :
    generateInfill tris d contour z
        = (List.range
            ((⌊(bboxMaxX tris - bboxMinX tris) / (2 / (d / 100))⌋).toNat + 1)).map
            (fun i : ℕ =>
              [⟨bboxMinX tris + (i : ℚ) * (2 / (d / 100)), bboxMinY tris, z⟩,
               ⟨bboxMinX tris + (i : ℚ) * (2 / (d / 100)), bboxMaxY tris, z⟩])
    ∧ (∀ contour2 : List Vector3,
        generateInfill tris d contour2 z = generateInfill tris d contour z) := by
  have hstep : 0 < 2 / (d / 100) := by positivity
  have hx := bboxMinX_le_bboxMaxX tris
  refine ⟨?_, fun c2 => rfl⟩
  have hun : generateInfill tris d contour z
      = (sweep (2 / (d / 100)) (bboxMaxX tris) (bboxMinX tris)).map
        (fun x : ℚ => ([⟨x, bboxMinY tris, z⟩, ⟨x, bboxMaxY tris, z⟩] : List Vector3)) := rfl
  rw [hun, sweep_eq hstep hx, List.map_map]
  rfl

theorem generateInfill_spec_witness :
    0 < (20 : ℚ)
    ∧ (generateInfill createTestCube 20 [] 0
        = (List.range
            ((⌊(bboxMaxX createTestCube - bboxMinX createTestCube)
                / (2 / ((20 : ℚ) / 100))⌋).toNat + 1)).map
            (fun i : ℕ =>
              [⟨bboxMinX createTestCube + (i : ℚ) * (2 / ((20 : ℚ) / 100)),
                  bboxMinY createTestCube, 0⟩,
               ⟨bboxMinX createTestCube + (i : ℚ) * (2 / ((20 : ℚ) / 100)),
                  bboxMaxY createTestCube, 0⟩])
    ∧ (∀ contour2 : List Vector3,
        generateInfill createTestCube 20 contour2 0
          = generateInfill createTestCube 20 [] 0)) :=
  ⟨by norm_num, generateInfill_spec createTestCube 20 (by norm_num) [] 0⟩

theorem intersectionsAt_points_z (tris : List Triangle) (z : ℚ) :
    ∀ p ∈ intersectionsAt tris z, p.z = z := by
  intro p hp
  rcases List.mem_map.mp hp with ⟨t, _, rfl⟩
  rfl

theorem generateInfill_points_z (tris : List Triangle) (d : ℚ) (c : List Vector3)
    (z : ℚ) : ∀ l ∈ generateInfill tris d c z, ∀ p ∈ l, p.z = z := by
  intro l hl p hp
  simp only [generateInfill] at hl
  rcases List.mem_map.mp hl with ⟨x, _, rfl⟩
  simp only [List.mem_cons, List.not_mem_nil, or_false] at hp
  rcases hp with rfl | rfl <;> rfl

/-- C6: every contour point and every infill endpoint of every layer produced
by `slice` has Z exactly equal to that layer's height. -/
theorem layer_points_z (s : SimpleSlicer) (L : Layer) (hL : L ∈ slice s) :
    (∀ c ∈ L.contours, ∀ p ∈ c, p.z = L.height)
    ∧ (∀ l ∈ L.infill, ∀ p ∈ l, p.z = L.height) := by
  rw [slice_eq_map] at hL
  rcases List.mem_map.mp hL with ⟨z, hz, rfl⟩
  rw [layerAt_height]
  constructor
  · intro c hc p hp
    have hceq : c = intersectionsAt s.triangles z := by
      revert hc
      simp only [layerAt]
      split
      · intro hc; cases hc
      · intro hc
        simpa using hc
    subst hceq
    exact intersectionsAt_points_z s.triangles z p hp
  · intro l hl p hp
    have hlmem : l ∈ generateInfill s.triangles s.infillDensity
        (intersectionsAt s.triangles z) z := by
      revert hl
      simp only [layerAt]
      split
      · intro hl; cases hl
      · intro hl; exact hl
    exact generateInfill_points_z s.triangles s.infillDensity _ z l hlmem p hp

theorem layer_points_z_witness :
    (∀ c ∈ ((slice testSlicer).getD 0 ⟨0, [], []⟩).contours, ∀ p ∈ c,
        p.z = ((slice testSlicer).getD 0 ⟨0, [], []⟩).height)
    ∧ (∀ l ∈ ((slice testSlicer).getD 0 ⟨0, [], []⟩).infill, ∀ p ∈ l,
        p.z = ((slice testSlicer).getD 0 ⟨0, [], []⟩).height) :=
  layer_points_z testSlicer ((slice testSlicer).getD 0 ⟨0, [], []⟩)
    (by with_unfolding_all decide)

theorem slice_nonempty_safe_witness :
    bboxMinZ testSlicer.triangles ≤ bboxMaxZ testSlicer.triangles
    ∧ slice testSlicer ≠ []
    ∧ (generateGCode testSlicer).isSome = true :=
  slice_nonempty_safe testSlicer (by norm_num [testSlicer])

/-! ### Extrusion accumulator lemmas -/

theorem eVals_append (ls1 ls2 : List GLine) :
    eVals (ls1 ++ ls2) = eVals ls1 ++ eVals ls2 :=
  List.filterMap_append _ _ _

theorem chain_append_last {R : ℚ → ℚ → Prop} :
    ∀ (xs : List ℚ) (a : ℚ) (ys : List ℚ), List.Chain R a xs →
      List.Chain R (xs.getLastD a) ys → List.Chain R a (xs ++ ys) := by
  intro xs
  induction xs with
  | nil => intro a ys _ h2; exact h2
  | cons x xs ih =>
      intro a ys h1 h2
      rw [List.chain_cons] at h1
      rw [List.getLastD_cons] at h2
      exact List.chain_cons.mpr ⟨h1.1, ih x ys h1.2 h2⟩

theorem getLastD_append (xs ys : List ℚ) (a : ℚ) :
    (xs ++ ys).getLastD a = ys.getLastD (xs.getLastD a) := by
  induction xs generalizing a with
  | nil => rfl
  | cons x xs ih => rw [List.cons_append, List.getLastD_cons, List.getLastD_cons, ih]

theorem IncrRun.append {R : ℚ → ℚ → Prop} {e0 e1 e2 : ℚ} {ls1 ls2 : List GLine}
    (h1 : IncrRun R e0 (ls1, e1)) (h2 : IncrRun R e1 (ls2, e2)) :
    IncrRun R e0 (ls1 ++ ls2, e2) := by
  constructor
  · show List.Chain R e0 (eVals (ls1 ++ ls2))
    rw [eVals_append]
    refine chain_append_last _ _ _ h1.1 ?_
    rw [← h1.2]
    exact h2.1
  · show e2 = (eVals (ls1 ++ ls2)).getLastD e0
    rw [eVals_append, getLastD_append, ← h1.2]
    exact h2.2

theorem IncrRun.mono {R S : ℚ → ℚ → Prop} (h : ∀ a b, R a b → S a b) {e0 : ℚ}
    {p : List GLine × ℚ} (hr : IncrRun R e0 p) : IncrRun S e0 p :=
  ⟨hr.1.imp h, hr.2⟩

theorem extrudeMoves_run : ∀ (ps : List Vector3) (e : ℚ),
    IncrRun R10 e (extrudeMoves e ps) := by
  intro ps
  induction ps with
  | nil => intro e; exact ⟨List.Chain.nil, rfl⟩
  | cons p ps ih =>
      intro e
      constructor
      · show List.Chain R10 e ((e + 1/10) :: eVals (extrudeMoves (e + 1/10) ps).1)
        exact List.Chain.cons rfl (ih (e + 1/10)).1
      · show (extrudeMoves (e + 1/10) ps).2
            = ((e + 1/10) :: eVals (extrudeMoves (e + 1/10) ps).1).getLastD e
        rw [List.getLastD_cons]
        exact (ih (e + 1/10)).2

theorem contourGCode_run (z : ℚ) : ∀ (c : List Vector3) (e : ℚ),
    IncrRun R10 e (contourGCode z e c) := by
  intro c e
  cases c with
  | nil => exact ⟨List.Chain.nil, rfl⟩
  | cons p0 rest =>
      have h := extrudeMoves_run rest e
      exact ⟨h.1, h.2⟩

theorem gcodeContours_run (z : ℚ) : ∀ (cs : List (List Vector3)) (e : ℚ),
    IncrRun R10 e (gcodeContours z e cs) := by
  intro cs
  induction cs with
  | nil => intro e; exact ⟨List.Chain.nil, rfl⟩
  | cons c cs ih =>
      intro e
      exact IncrRun.append (contourGCode_run z c e) (ih (contourGCode z e c).2)

theorem infillLineGCode_run (z : ℚ) : ∀ (l : List Vector3) (e : ℚ),
    IncrRun R20 e (infillLineGCode z e l) := by
  intro l e
  match l with
  | [] => exact ⟨List.Chain.nil, rfl⟩
  | [p] => exact ⟨List.Chain.nil, rfl⟩
  | p0 :: p1 :: rest =>
      exact ⟨List.Chain.cons rfl List.Chain.nil, rfl⟩

theorem gcodeInfills_run (z : ℚ) : ∀ (ls : List (List Vector3)) (e : ℚ),
    IncrRun R20 e (gcodeInfills z e ls) := by
  intro ls
  induction ls with
  | nil => intro e; exact ⟨List.Chain.nil, rfl⟩
  | cons l ls ih =>
      intro e
      exact IncrRun.append (infillLineGCode_run z l e) (ih (infillLineGCode z e l).2)

theorem gcodeLayers_run : ∀ (Ls : List Layer) (i : ℕ) (e : ℚ),
    IncrRun EStep e (gcodeLayers i e Ls) := by
  intro Ls
  induction Ls with
  | nil => intro i e; exact ⟨List.Chain.nil, rfl⟩
  | cons L rest ih =>
      intro i e
      have h1 : IncrRun EStep e (gcodeContours L.height e L.contours) :=
        (gcodeContours_run L.height L.contours e).mono (fun a b h => Or.inl h)
      have h2 : IncrRun EStep (gcodeContours L.height e L.contours).2
          (gcodeInfills L.height (gcodeContours L.height e L.contours).2 L.infill) :=
        (gcodeInfills_run L.height L.infill _).mono (fun a b h => Or.inr h)
      have h3 := ih (i + 1)
        (gcodeInfills L.height (gcodeContours L.height e L.contours).2 L.infill).2
      have hc := IncrRun.append (IncrRun.append h1 h2) h3
      exact ⟨hc.1, hc.2⟩

/-- For `generateGCode s = some lines`, `lines` is header ++ layer body ++
footer with the body produced by `gcodeLayers 0 0`. -/
theorem generateGCode_decomp (s : SimpleSlicer) (lines : List GLine)
    (h : generateGCode s = some lines) :
    ∃ L : Layer, (slice s).getLast? = some L ∧
      lines = gcodeHeader s ++ (gcodeLayers 0 0 (slice s)).1 ++
        [GLine.g0z (L.height + 10), GLine.m84] := by
  rw [generateGCode] at h
  rcases hL : (slice s).getLast? with _ | L
  · rw [hL] at h; cases h
  · rw [hL] at h
    exact ⟨L, rfl, (Option.some.inj h).symm⟩

theorem EStep_lt {a b : ℚ} (h : EStep a b) : a < b := by
  rcases h with rfl | rfl
  · show a < a + 1/10
    norm_num
  · show a < a + 1/20
    norm_num

/-- C4: within one `generateGCode` run the extrusion accumulator starts at 0,
advances by exactly `0.1` per contour segment and exactly `0.05` per emitted
infill line, is never reset, and the E values on the output's `G1` lines are
strictly increasing; a fresh call starts again from 0 (the chain below is
anchored at the literal `0` the function initializes `e` with). -/
theorem gcode_extrusion_spec (s : SimpleSlicer) (lines : List GLine)
    (h : generateGCode s = some lines) (z e : ℚ) (contour iLine : List Vector3) :
    List.Chain EStep 0 (eVals lines)
    ∧ List.Pairwise (· < ·) (eVals lines)
    ∧ List.Chain R10 e (eVals (contourGCode z e contour).1)
    ∧ eVals (infillLineGCode z e iLine).1
        = (if 2 ≤ iLine.length then [e + 1/20] else []) := by
  obtain ⟨L, hL, rfl⟩ := generateGCode_decomp s lines h
  have hrun := gcodeLayers_run (slice s) 0 0
  have hev : eVals (gcodeHeader s ++ (gcodeLayers 0 0 (slice s)).1 ++
      [GLine.g0z (L.height + 10), GLine.m84]) = eVals (gcodeLayers 0 0 (slice s)).1 := by
    rw [eVals_append, eVals_append]
    show [] ++ eVals (gcodeLayers 0 0 (slice s)).1 ++ [] = _
    simp
  have hchain : List.Chain EStep 0 (eVals (gcodeHeader s ++
      (gcodeLayers 0 0 (slice s)).1 ++ [GLine.g0z (L.height + 10), GLine.m84])) := by
    rw [hev]
    exact hrun.1
  refine ⟨hchain, ?_, ?_, ?_⟩
  · have hlt : List.Chain (· < ·) 0 (eVals (gcodeHeader s ++
        (gcodeLayers 0 0 (slice s)).1 ++ [GLine.g0z (L.height + 10), GLine.m84])) :=
      hchain.imp (fun a b hab => EStep_lt hab)
    exact (List.pairwise_cons.mp (List.chain_iff_pairwise.mp hlt)).2
  · exact (contourGCode_run z contour e).1
  · match iLine with
    | [] => rfl
    | [p] => rfl
    | p0 :: p1 :: rest =>
        show [e + 1/20] = (if 2 ≤ rest.length + 1 + 1 then [e + 1/20] else [])
        rw [if_pos (by omega)]

theorem gcode_extrusion_spec_witness :
    generateGCode testSlicer = some ((generateGCode testSlicer).getD [])
    ∧ (List.Chain EStep 0 (eVals ((generateGCode testSlicer).getD []))
    ∧ List.Pairwise (· < ·) (eVals ((generateGCode testSlicer).getD []))
    ∧ List.Chain R10 0 (eVals (contourGCode 0 0 []).1)
    ∧ eVals (infillLineGCode 0 0 ([] : List Vector3)).1
        = (if 2 ≤ ([] : List Vector3).length then [(0 : ℚ) + 1/20] else [])) := by
  have h : generateGCode testSlicer = some ((generateGCode testSlicer).getD []) := by
    with_unfolding_all decide
  exact ⟨h, gcode_extrusion_spec testSlicer ((generateGCode testSlicer).getD []) h 0 0 [] []⟩

/-- C7: `generateGCode` is deterministic — its output (both the structured
line list and the rendered text) is a pure function of the stored triangle
list, `layerHeight`, and `infillDensity`; two states agreeing on those three
data members produce identical output. -/
theorem generateGCode_deterministic (s1 s2 : SimpleSlicer)
    (ht : s1.triangles = s2.triangles) (hl : s1.layerHeight = s2.layerHeight)
    (hd : s1.infillDensity = s2.infillDensity) :
    generateGCode s1 = generateGCode s2 ∧ gcodeText s1 = gcodeText s2 := by
  obtain ⟨t1, l1, d1⟩ := s1
  obtain ⟨t2, l2, d2⟩ := s2
  simp only at ht hl hd
  subst ht
  subst hl
  subst hd
  exact ⟨rfl, rfl⟩

theorem generateGCode_deterministic_witness :
    testSlicer.triangles = testSlicer2.triangles
    ∧ testSlicer.layerHeight = testSlicer2.layerHeight
    ∧ testSlicer.infillDensity = testSlicer2.infillDensity
    ∧ (generateGCode testSlicer = generateGCode testSlicer2
       ∧ gcodeText testSlicer = gcodeText testSlicer2) := by
  have ht : testSlicer.triangles = testSlicer2.triangles := rfl
  have hl : testSlicer.layerHeight = testSlicer2.layerHeight := by
    norm_num [testSlicer, testSlicer2]
  have hd : testSlicer.infillDensity = testSlicer2.infillDensity := by
    norm_num [testSlicer, testSlicer2]
  exact ⟨ht, hl, hd, generateGCode_deterministic testSlicer testSlicer2 ht hl hd⟩

/-! ### Layer-comment counting (for the summary/serializer agreement) -/

theorem countLC_extrudeMoves : ∀ (ps : List Vector3) (e : ℚ),
    ((extrudeMoves e ps).1).countP isLayerCmt = 0 := by
  intro ps
  induction ps with
  | nil => intro e; rfl
  | cons p ps ih =>
      intro e
      show (GLine.g1move p.x p.y (e + 1/10) :: (extrudeMoves (e + 1/10) ps).1).countP
        isLayerCmt = 0
      rw [List.countP_cons, ih (e + 1/10)]
      rfl

theorem countLC_contourGCode (z : ℚ) : ∀ (c : List Vector3) (e : ℚ),
    ((contourGCode z e c).1).countP isLayerCmt = 0 := by
  intro c e
  cases c with
  | nil => rfl
  | cons p0 rest =>
      show (GLine.g0z z :: GLine.g0xy p0.x p0.y :: (extrudeMoves e rest).1).countP
        isLayerCmt = 0
      rw [List.countP_cons, List.countP_cons, countLC_extrudeMoves rest e]
      rfl

theorem countLC_gcodeContours (z : ℚ) : ∀ (cs : List (List Vector3)) (e : ℚ),
    ((gcodeContours z e cs).1).countP isLayerCmt = 0 := by
  intro cs
  induction cs with
  | nil => intro e; rfl
  | cons c cs ih =>
      intro e
      show ((contourGCode z e c).1 ++ (gcodeContours z (contourGCode z e c).2 cs).1).countP
        isLayerCmt = 0
      rw [List.countP_append, countLC_contourGCode z c e, ih]

theorem countLC_infillLineGCode (z : ℚ) : ∀ (l : List Vector3) (e : ℚ),
    ((infillLineGCode z e l).1).countP isLayerCmt = 0 := by
  intro l e
  match l with
  | [] => rfl
  | [p] => rfl
  | p0 :: p1 :: rest => rfl

theorem countLC_gcodeInfills (z : ℚ) : ∀ (ls : List (List Vector3)) (e : ℚ),
    ((gcodeInfills z e ls).1).countP isLayerCmt = 0 := by
  intro ls
  induction ls with
  | nil => intro e; rfl
  | cons l ls ih =>
      intro e
      show ((infillLineGCode z e l).1 ++
        (gcodeInfills z (infillLineGCode z e l).2 ls).1).countP isLayerCmt = 0
      rw [List.countP_append, countLC_infillLineGCode z l e, ih]

theorem countLC_gcodeLayers : ∀ (Ls : List Layer) (i : ℕ) (e : ℚ),
    ((gcodeLayers i e Ls).1).countP isLayerCmt = Ls.length := by
  intro Ls
  induction Ls with
  | nil => intro i e; rfl
  | cons L rest ih =>
      intro i e
      show (GLine.layerComment i L.height ::
        ((gcodeContours L.height e L.contours).1 ++
          (gcodeInfills L.height (gcodeContours L.height e L.contours).2 L.infill).1 ++
          (gcodeLayers (i + 1)
            (gcodeInfills L.height (gcodeContours L.height e L.contours).2 L.infill).2
            rest).1)).countP isLayerCmt = rest.length + 1
      rw [List.countP_cons, List.countP_append, List.countP_append,
        countLC_gcodeContours, countLC_gcodeInfills, ih]
      show 0 + 0 + rest.length + (if true then 1 else 0) = rest.length + 1
      simp

/-- C8: under the same configuration and mesh, the `totalLayers` reported by
`getLayerInfo` equals the number of layers in the sequence that
`generateGCode`'s internal `slice` run produces — both call the same `slice`,
and the G-code output contains exactly one per-layer comment per layer. -/
theorem getLayerInfo_totalLayers (s : SimpleSlicer) (lines : List GLine)
    (h : generateGCode s = some lines) :
    (getLayerInfo s).totalLayers = (slice s).length
    ∧ lines.countP isLayerCmt = (getLayerInfo s).totalLayers := by
  refine ⟨rfl, ?_⟩
  obtain ⟨L, hL, rfl⟩ := generateGCode_decomp s lines h
  rw [List.countP_append, List.countP_append, countLC_gcodeLayers]
  show (gcodeHeader s).countP isLayerCmt + (slice s).length +
    ([GLine.g0z (L.height + 10), GLine.m84]).countP isLayerCmt = _
  have h1 : (gcodeHeader s).countP isLayerCmt = 0 := rfl
  have h2 : ([GLine.g0z (L.height + 10), GLine.m84]).countP isLayerCmt = 0 := rfl
  rw [h1, h2]
  show 0 + (slice s).length + 0 = (slice s).length
  omega

theorem getLayerInfo_totalLayers_witness :
    generateGCode testSlicer = some ((generateGCode testSlicer).getD [])
    ∧ ((getLayerInfo testSlicer).totalLayers = (slice testSlicer).length
    ∧ ((generateGCode testSlicer).getD []).countP isLayerCmt
        = (getLayerInfo testSlicer).totalLayers) := by
  have h : generateGCode testSlicer = some ((generateGCode testSlicer).getD []) := by
    with_unfolding_all decide
  exact ⟨h, getLayerInfo_totalLayers testSlicer ((generateGCode testSlicer).getD []) h⟩

end Slicer

